import Mathlib

/-! Verification of the timeout-bounded subprocess I/O layer of
`code/client/munkilib/munkicommon/info.py`: the helper
`set_file_nonblock`, and the two timed operations `Popen.timed_readline`
and `Popen.communicate`.  The interaction with the operating system
(select, one-byte and bulk reads, exit-status polling) is embedded as an
explicit event trace consumed by the loops, translated line by line from
the source.
-/

namespace Munki

/-- The O_NONBLOCK status-flag bit of a file descriptor, as on macOS
(value 4, that is, bit 2 of the flag word). -/
def O_NONBLOCK : Nat := 4

/-- Embedding of `set_file_nonblock(f, non_blocking)`: reads the
descriptor's status-flag word (F_GETFL), toggles the O_NONBLOCK bit with
xor exactly when its current boolean value disagrees with `non_blocking`,
and writes the word back (F_SETFL).  Modelled as a pure function on the
flag word. -/
def set_file_nonblock (flags : Nat) (non_blocking : Bool) : Nat :=
  if ((flags &&& O_NONBLOCK != 0) != non_blocking) then flags ^^^ O_NONBLOCK
  else flags

/-- One select-then-read observation made by `timed_readline`: either the
one-second wait elapsed with the descriptor not readable (`noData`), or
the descriptor was readable and `f.read(1)` returned `c`; `data none`
encodes the empty read `c == ''` at end-of-stream, `data (some ch)` a
one-byte read. -/
inductive ReadEvent where
  | noData : ReadEvent
  | data : Option Char → ReadEvent
deriving DecidableEq, Repr

/-- The break condition of the readline loop on a byte read: `c == '' or
c == '\n'` in the source. -/
def isTermChar (c : Option Char) : Prop := c = none ∨ c = some '\n'

instance (c : Option Char) : Decidable (isTermChar c) := by
  unfold isTermChar; infer_instance

/-- Outcome of `timed_readline`: the `TimeoutError` raise carries no bytes
(the partially accumulated line is discarded by the source), a successful
return carries the joined accumulated output. -/
inductive LineResult where
  | timeoutError : LineResult
  | line : List Char → LineResult
deriving DecidableEq, Repr

/-- The `while 1` loop of `timed_readline`, consuming one `ReadEvent` per
iteration.  On an empty select result, `inactive` is incremented and the
loop breaks once `inactive >= timeout`; on a readable descriptor,
`inactive` is reset to 0, the byte read is appended to `output` (the empty
read at end-of-stream appends nothing, as in the source's join), and the
loop breaks on end-of-stream or a newline.  Returns the final `inactive`
and `output` at loop exit, or `none` when the trace is exhausted before
the loop exits. -/
def timed_readline_loop (timeout : Int) :
    List ReadEvent → Nat → List Char → Option (Nat × List Char)
  | [], _, _ => none
  | ReadEvent.noData :: rest, inactive, output =>
      if ((inactive + 1 : Nat) : Int) ≥ timeout then some (inactive + 1, output)
      else timed_readline_loop timeout rest (inactive + 1) output
  | ReadEvent.data c :: rest, _, output =>
      if isTermChar c then some (0, output ++ c.toList)
      else timed_readline_loop timeout rest 0 (output ++ c.toList)

/-- Result and final descriptor state of one `timed_readline` call. -/
structure LineCall where
  result : Option LineResult
  finalFlags : Nat
deriving DecidableEq, Repr

/-- Embedding of `Popen.timed_readline(f, timeout)`: puts the descriptor
into non-blocking mode, runs the select loop, restores blocking mode, and
then raises `TimeoutError` if `inactive >= timeout`, otherwise returns the
joined output.  `flags` is the descriptor's status-flag word on entry and
`finalFlags` the word when the call returns or raises; when the loop never
exits (exhausted trace) the descriptor is still in the mode of the active
call. -/
def timed_readline (events : List ReadEvent) (timeout : Int) (flags : Nat) :
    LineCall :=
  let flags1 := set_file_nonblock flags true
  match timed_readline_loop timeout events 0 [] with
  | none => { result := none, finalFlags := flags1 }
  | some (inactive, output) =>
      { result := some (if ((inactive : Nat) : Int) ≥ timeout
                        then LineResult.timeoutError
                        else LineResult.line output),
        finalFlags := set_file_nonblock flags1 false }

/-- The sequence of `read(1)` results carried by a trace, in order: the
underlying byte stream observed through the descriptor. -/
def streamOf : List ReadEvent → List (Option Char)
  | [] => []
  | ReadEvent.noData :: rest => streamOf rest
  | ReadEvent.data c :: rest => c :: streamOf rest

/-- Modelled from the spec: the result of a conventional blocking line
read (Python's `file.readline`, which is not part of this repository) on
a byte stream — all bytes up to and including the first newline, or up to
end-of-stream if no newline occurs. -/
def blocking_readline : List (Option Char) → List Char
  | [] => []
  | none :: _ => []
  | some c :: rest => if c = '\n' then [c] else c :: blocking_readline rest

/-- The portion of a trace strictly before its first terminating read
(end-of-stream or newline). -/
def beforeFirstTerm : List ReadEvent → List ReadEvent
  | [] => []
  | ReadEvent.noData :: rest => ReadEvent.noData :: beforeFirstTerm rest
  | ReadEvent.data c :: rest =>
      if isTermChar c then [] else ReadEvent.data c :: beforeFirstTerm rest

/-- `hasRun n l` holds when `l` contains `n` consecutive `noData` events:
a full run of `n` empty one-second waits with no byte in between. -/
def hasRun (n : Nat) (l : List ReadEvent) : Prop :=
  ∃ l1 l2, l = l1 ++ List.replicate n ReadEvent.noData ++ l2

/-- The two monitored standard streams of the child process. -/
inductive StreamId where
  | out : StreamId
  | err : StreamId
deriving DecidableEq, Repr

/-- One iteration's observation in the `communicate` loop: which monitored
descriptors `select` reported readable within the one-second wait, what a
bulk `read()` on each returns when it is performed (the empty string
encodes the zero-byte read at end-of-stream), and the child's exit status
as seen by `self.poll()` at the end of the iteration. -/
structure CommEvent where
  readyOut : Bool
  readyErr : Bool
  readOut : String
  readErr : String
  poll : Option Int
deriving DecidableEq, Repr

/-- Environment of one `communicate` call: which standard streams were
requested at spawn (`self.stdout` or `self.stderr` is `None` for an absent
stream), the initial status-flag words of the two descriptors, whether the
parent's `sys.stdin` is open, and the trace of loop observations. -/
structure CommEnv where
  hasStdout : Bool
  hasStderr : Bool
  flagsOut : Nat
  flagsErr : Nat
  sysStdinOpen : Bool
  events : List CommEvent
deriving DecidableEq, Repr

/-- The wait set `fds` built before the loop: stdout appended first when
present, then stderr, exactly as in the source. -/
def initFds (env : CommEnv) : List StreamId :=
  (if env.hasStdout then [StreamId.out] else []) ++
  (if env.hasStderr then [StreamId.err] else [])

/-- Whether `select` reports stream `s` readable in observation `ev`. -/
def readyIn (ev : CommEvent) : StreamId → Bool
  | StreamId.out => ev.readyOut
  | StreamId.err => ev.readyErr

/-- The `while returncode is None` loop of `communicate`, consuming one
`CommEvent` per iteration.  `fds` is the wait set handed to `select`; the
source builds it once before the loop and never removes a descriptor from
it, so every recursive call passes it unchanged.  With an empty select
result the inactivity counter is incremented and `TimeoutError` is raised
as soon as it reaches `timeout` (before the exit-status poll); otherwise
the counter resets to zero and each ready descriptor's bulk read is
appended to its buffer.  Returns `(raised, stdout_buf, stderr_buf)`, or
`none` when the trace is exhausted while the child is still running. -/
def comm_loop (timeout : Int) (fds : List StreamId) :
    List CommEvent → Nat → List String → List String →
    Option (Bool × List String × List String)
  | [], _, _, _ => none
  | ev :: rest, inactive, bufOut, bufErr =>
      let rlist := fds.filter (readyIn ev)
      if rlist = [] then
        if ((inactive + 1 : Nat) : Int) ≥ timeout then
          some (true, bufOut, bufErr)
        else
          match ev.poll with
          | some _ => some (false, bufOut, bufErr)
          | none => comm_loop timeout fds rest (inactive + 1) bufOut bufErr
      else
        let bufOut2 := if StreamId.out ∈ rlist then bufOut ++ [ev.readOut]
                       else bufOut
        let bufErr2 := if StreamId.err ∈ rlist then bufErr ++ [ev.readErr]
                       else bufErr
        match ev.poll with
        | some _ => some (false, bufOut2, bufErr2)
        | none => comm_loop timeout fds rest 0 bufOut2 bufErr2

/-- Instrumented mirror of `comm_loop` that records the wait set handed to
`select` at each executed iteration. -/
def comm_loop_trace (timeout : Int) (fds : List StreamId) :
    List CommEvent → Nat → List String → List String → List (List StreamId)
  | [], _, _, _ => []
  | ev :: rest, inactive, bufOut, bufErr =>
      let rlist := fds.filter (readyIn ev)
      if rlist = [] then
        if ((inactive + 1 : Nat) : Int) ≥ timeout then [fds]
        else
          match ev.poll with
          | some _ => [fds]
          | none => fds :: comm_loop_trace timeout fds rest (inactive + 1)
                             bufOut bufErr
      else
        let bufOut2 := if StreamId.out ∈ rlist then bufOut ++ [ev.readOut]
                       else bufOut
        let bufErr2 := if StreamId.err ∈ rlist then bufErr ++ [ev.readErr]
                       else bufErr
        match ev.poll with
        | some _ => [fds]
        | none => fds :: comm_loop_trace timeout fds rest 0 bufOut2 bufErr2

/-- Result of a `communicate` call: a `TimeoutError` raise, or the pair of
joined per-stream buffers with `none` for a stream that was not
requested. -/
inductive CommResult where
  | timeoutError : CommResult
  | success : Option String → Option String → CommResult
deriving DecidableEq, Repr

/-- Bytes written to the parent process's own standard input (the
source's `sys.stdin.write`) and to the child's standard input during one
`communicate` call. -/
structure WriteLog where
  parentStdin : String
  childStdin : String
deriving DecidableEq, Repr

/-- Full observable outcome of a `communicate` call: its result (`none`
when the trace is exhausted mid-loop), the final status-flag words of the
two stream descriptors, and where the `std_in` bytes went. -/
structure CommOutcome where
  result : Option CommResult
  flagsOut : Nat
  flagsErr : Nat
  writes : WriteLog
deriving DecidableEq, Repr

/-- The total bytes the child delivers on stdout across the whole trace. -/
def allOut (env : CommEnv) : String :=
  String.join ((env.events.filter fun ev => ev.readyOut).map fun ev => ev.readOut)

/-- The total bytes the child delivers on stderr across the whole trace. -/
def allErr (env : CommEnv) : String :=
  String.join ((env.events.filter fun ev => ev.readyErr).map fun ev => ev.readErr)

/-- Modelled from the spec: the plain unbounded blocking `communicate` of
the parent process facility (Python's `subprocess.Popen.communicate`,
which is not part of this repository): writes `std_in` to the child's
standard input, drains every requested stream to completion with no
inactivity monitoring, and can never raise the timeout error. -/
def super_communicate (env : CommEnv) (std_in : Option String) : CommOutcome :=
  { result := some (CommResult.success
      (if env.hasStdout then some (allOut env) else none)
      (if env.hasStderr then some (allErr env) else none)),
    flagsOut := env.flagsOut,
    flagsErr := env.flagsErr,
    writes := { parentStdin := "", childStdin := std_in.getD "" } }

/-- Embedding of `Popen.communicate(std_in, timeout)`.  With
`timeout <= 0` it defers to the parent class's blocking communicate.
Otherwise it puts each requested descriptor into non-blocking mode (and
never toggles it back), writes `std_in` — when supplied and `sys.stdin`
is open — to the parent's own `sys.stdin`, runs the select loop, and on
normal loop exit joins each requested stream's buffer, with `none` for an
absent stream. -/
def communicate (env : CommEnv) (std_in : Option String) (timeout : Int) :
    CommOutcome :=
  if timeout ≤ 0 then super_communicate env std_in
  else
    let fOut := if env.hasStdout then set_file_nonblock env.flagsOut true
                else env.flagsOut
    let fErr := if env.hasStderr then set_file_nonblock env.flagsErr true
                else env.flagsErr
    let writes : WriteLog :=
      { parentStdin := match std_in with
          | some s => if env.sysStdinOpen then s else ""
          | none => ""
        childStdin := "" }
    match comm_loop timeout (initFds env) env.events 0 [] [] with
    | none =>
        { result := none, flagsOut := fOut, flagsErr := fErr,
          writes := writes }
    | some (raised, bufOut, bufErr) =>
        if raised then
          { result := some CommResult.timeoutError,
            flagsOut := fOut, flagsErr := fErr, writes := writes }
        else
          { result := some (CommResult.success
              (if env.hasStdout then some (String.join bufOut) else none)
              (if env.hasStderr then some (String.join bufErr) else none)),
            flagsOut := fOut, flagsErr := fErr, writes := writes }

/-- The consumed prefix of a trace, up to and including the event at which
`poll` first reports an exit status. -/
def takeThroughExit : List CommEvent → List CommEvent
  | [] => []
  | ev :: rest =>
      ev :: (match ev.poll with
             | some _ => []
             | none => takeThroughExit rest)

/-- The stdout reads performed over a list of consumed events with wait
set `fds`, in arrival order. -/
def collectOut (fds : List StreamId) (evts : List CommEvent) : List String :=
  (evts.filter fun ev =>
    decide (StreamId.out ∈ fds.filter (readyIn ev))).map fun ev => ev.readOut

/-- The stderr reads performed over a list of consumed events with wait
set `fds`, in arrival order. -/
def collectErr (fds : List StreamId) (evts : List CommEvent) : List String :=
  (evts.filter fun ev =>
    decide (StreamId.err ∈ fds.filter (readyIn ev))).map fun ev => ev.readErr

/-- A child that delivers one stdout chunk per second for two seconds and
then exits; stderr was not requested. -/
def envSteady : CommEnv :=
  { hasStdout := true, hasStderr := false, flagsOut := 0, flagsErr := 0,
    sysStdinOpen := false,
    events := [{ readyOut := true, readyErr := false, readOut := "a",
                 readErr := "", poll := none },
               { readyOut := true, readyErr := false, readOut := "b",
                 readErr := "", poll := some 0 }] }

/-- A child that delivers "hi" on stdout and exits within the first
second; stderr was not requested and both descriptors start in blocking
mode (flag word 0). -/
def envQuick : CommEnv :=
  { hasStdout := true, hasStderr := false, flagsOut := 0, flagsErr := 0,
    sysStdinOpen := false,
    events := [{ readyOut := true, readyErr := false, readOut := "hi",
                 readErr := "", poll := some 0 }] }

/-- A stdout end-of-stream observation: the descriptor is reported ready
and the bulk read returns zero bytes; the child is still running. -/
def evEof : CommEvent :=
  { readyOut := true, readyErr := false, readOut := "", readErr := "",
    poll := none }

/-- A stdout end-of-stream observation in the iteration at which the
child's exit status becomes available. -/
def evEofExit : CommEvent :=
  { readyOut := true, readyErr := false, readOut := "", readErr := "",
    poll := some 0 }

/-- A child whose stdout hits end-of-stream immediately and whose exit
status appears only at the third iteration; stderr was not requested. -/
def envEof : CommEnv :=
  { hasStdout := true, hasStderr := false, flagsOut := 0, flagsErr := 0,
    sysStdinOpen := false, events := [evEof, evEof, evEofExit] }

/-- A call that supplies input bytes while the parent's `sys.stdin` is
open. -/
def envStdin : CommEnv :=
  { hasStdout := true, hasStderr := false, flagsOut := 0, flagsErr := 0,
    sysStdinOpen := true,
    events := [{ readyOut := true, readyErr := false, readOut := "",
                 readErr := "", poll := some 0 }] }

section BitLemmas

lemma land_four_eq (n : Nat) : n &&& 4 = (n.testBit 2).toNat * 4 := by
  have h : (4 : Nat) = 2 ^ 2 := by norm_num
  rw [h, Nat.and_two_pow]

lemma bne_land_four (n : Nat) : ((n &&& 4) != 0) = n.testBit 2 := by
  rw [land_four_eq]
  cases n.testBit 2 <;> simp

lemma testBit_four (i : Nat) : (4 : Nat).testBit i = decide (i = 2) := by
  have h : (4 : Nat) = 2 ^ 2 := by norm_num
  by_cases hi : i = 2
  · subst hi; simp; decide
  · rw [h, Nat.testBit_two_pow_of_ne (fun hc => hi hc.symm)]
    simp [hi]

lemma testBit2_set_file_nonblock (flags : Nat) (b : Bool) :
    (set_file_nonblock flags b).testBit 2 = b := by
  unfold set_file_nonblock O_NONBLOCK
  rw [bne_land_four]
  by_cases h : flags.testBit 2 = b
  · simp [h]
  · have hb : (flags.testBit 2 != b) = true := by
      cases hf : flags.testBit 2 <;> cases b <;> simp_all
    simp only [hb, if_true]
    rw [Nat.testBit_xor, testBit_four]
    cases hf : flags.testBit 2 <;> cases b <;> simp_all

lemma testBit_set_file_nonblock_ne (flags : Nat) (b : Bool) (i : Nat)
    (hi : i ≠ 2) : (set_file_nonblock flags b).testBit i = flags.testBit i := by
  unfold set_file_nonblock O_NONBLOCK
  by_cases h : ((flags &&& 4 != 0) != b) = true
  · simp only [h, if_true]
    rw [Nat.testBit_xor, testBit_four]
    simp [hi]
  · simp [h]

lemma set_file_nonblock_idem (flags : Nat) (b : Bool) :
    set_file_nonblock (set_file_nonblock flags b) b = set_file_nonblock flags b := by
  have h := testBit2_set_file_nonblock flags b
  unfold set_file_nonblock O_NONBLOCK
  rw [bne_land_four]
  unfold set_file_nonblock O_NONBLOCK at h
  rw [h]
  simp

end BitLemmas

/-- C10: `set_file_nonblock(f, b)` leaves the descriptor's O_NONBLOCK bit
(bit 2 of the flag word) equal to `b`, leaves every other flag bit
unchanged, and is idempotent: applying it twice with the same `b` equals
applying it once. -/
theorem C10_set_file_nonblock_bit (flags : Nat) (b : Bool) :
    (set_file_nonblock flags b).testBit 2 = b ∧
    (∀ i, i ≠ 2 → (set_file_nonblock flags b).testBit i = flags.testBit i) ∧
    set_file_nonblock (set_file_nonblock flags b) b = set_file_nonblock flags b :=
  ⟨testBit2_set_file_nonblock flags b,
   fun i hi => testBit_set_file_nonblock_ne flags b i hi,
   set_file_nonblock_idem flags b⟩

/-- Witness for C10 at a concrete flag word and both booleans. -/
theorem C10_set_file_nonblock_bit_witness :
    (set_file_nonblock 9 true).testBit 2 = true ∧
    (set_file_nonblock 13 false).testBit 0 = (13 : Nat).testBit 0 := by
  refine ⟨(C10_set_file_nonblock_bit 9 true).1, ?_⟩
  exact (C10_set_file_nonblock_bit 13 false).2.1 0 (by decide)

section ReadlineLemmas

lemma readline_loop_line (timeout : Int) (evts : List ReadEvent) :
    ∀ (i : Nat) (acc : List Char) (j : Nat) (out : List Char),
      timed_readline_loop timeout evts i acc = some (j, out) →
      ¬ (((j : Nat) : Int) ≥ timeout) →
      out = acc ++ blocking_readline (streamOf evts) := by
  induction evts with
  | nil =>
    intro i acc j out h _
    simp [timed_readline_loop] at h
  | cons ev rest ih =>
    intro i acc j out h hj
    cases ev with
    | noData =>
      rw [timed_readline_loop] at h
      split at h
      · rename_i hc
        rw [Option.some.injEq, Prod.mk.injEq] at h
        obtain ⟨hj', _⟩ := h
        exact absurd (hj' ▸ hc) hj
      · simpa [streamOf] using ih (i + 1) acc j out h hj
    | data c =>
      rw [timed_readline_loop] at h
      split at h
      · rename_i hc
        rw [Option.some.injEq, Prod.mk.injEq] at h
        obtain ⟨_, hout⟩ := h
        subst hout
        rcases hc with hnone | hnl
        · subst hnone; simp [streamOf, blocking_readline]
        · subst hnl; simp [streamOf, blocking_readline]
      · rename_i hc
        have hcne : c ≠ none := fun hc0 => hc (Or.inl hc0)
        obtain ⟨ch, hch⟩ := Option.ne_none_iff_exists.mp hcne
        have hchn : ch ≠ '\n' := by
          intro he
          exact hc (Or.inr (by rw [← hch, he]))
        have := ih 0 (acc ++ c.toList) j out h hj
        rw [this, ← hch]
        simp [streamOf, blocking_readline, hchn]

lemma readline_err_of_nonpos (evts : List ReadEvent) (timeout : Int)
    (flags : Nat) (ht : timeout ≤ 0) :
    (timed_readline evts timeout flags).result = none ∨
    (timed_readline evts timeout flags).result = some LineResult.timeoutError := by
  unfold timed_readline
  cases hl : timed_readline_loop timeout evts 0 [] with
  | none => left; rfl
  | some p =>
    obtain ⟨j, out⟩ := p
    right
    have hj : ((j : Nat) : Int) ≥ timeout := le_trans ht (Int.ofNat_nonneg j)
    simp [hj]

lemma ge_iff_toNat_le {t : Int} {n : Nat} :
    (((n : Nat) : Int) ≥ t) ↔ t.toNat ≤ n := by
  rw [ge_iff_le, ← Int.toNat_le]

lemma replicate_pre_mono {m n : Nat} (h : m ≤ n) :
    List.replicate m ReadEvent.noData <+: List.replicate n ReadEvent.noData :=
  ⟨List.replicate (n - m) ReadEvent.noData, by
    rw [← List.replicate_add]; congr 1; omega⟩

lemma bft_pre (l : List ReadEvent) : beforeFirstTerm l <+: l := by
  induction l with
  | nil => exact ⟨[], rfl⟩
  | cons ev rest ih =>
    cases ev with
    | noData =>
      obtain ⟨t, ht⟩ := ih
      exact ⟨t, by rw [beforeFirstTerm, List.cons_append, ht]⟩
    | data c =>
      by_cases hc : isTermChar c
      · exact ⟨ReadEvent.data c :: rest, by simp [beforeFirstTerm, hc]⟩
      · obtain ⟨t, ht⟩ := ih
        exact ⟨t, by simp [beforeFirstTerm, hc, ht]⟩

lemma replicate_noData_pre_bft :
    ∀ (n : Nat) (l : List ReadEvent),
      List.replicate n ReadEvent.noData <+: l →
      List.replicate n ReadEvent.noData <+: beforeFirstTerm l := by
  intro n
  induction n with
  | zero => intro l _; exact ⟨beforeFirstTerm l, by simp⟩
  | succ k ih =>
    intro l h
    obtain ⟨t, ht⟩ := h
    cases l with
    | nil => simp [List.replicate_succ] at ht
    | cons a l' =>
      rw [List.replicate_succ, List.cons_append, List.cons.injEq] at ht
      obtain ⟨ha, hl'⟩ := ht
      subst ha
      obtain ⟨u, hu⟩ := ih l' ⟨t, hl'⟩
      exact ⟨u, by
        rw [beforeFirstTerm, List.replicate_succ, List.cons_append, hu]⟩

lemma hasRun_cons_iff (n : Nat) (a : ReadEvent) (l : List ReadEvent) :
    hasRun n (a :: l) ↔
      (List.replicate n ReadEvent.noData <+: (a :: l)) ∨ hasRun n l := by
  constructor
  · rintro ⟨l1, l2, h⟩
    cases l1 with
    | nil =>
      left
      exact ⟨l2, by simpa using h.symm⟩
    | cons b l1' =>
      right
      rw [List.cons_append, List.cons_append, List.cons.injEq] at h
      exact ⟨l1', l2, h.2⟩
  · rintro (⟨t, ht⟩ | ⟨l1, l2, h⟩)
    · exact ⟨[], t, by simp [← ht]⟩
    · exact ⟨a :: l1, l2, by simp [h]⟩

lemma hasRun_of_pre {n : Nat} {l : List ReadEvent}
    (h : List.replicate n ReadEvent.noData <+: l) : hasRun n l := by
  obtain ⟨t, ht⟩ := h
  exact ⟨[], t, by simp [← ht]⟩

lemma not_hasRun_nil {n : Nat} (hn : 0 < n) : ¬ hasRun n [] := by
  rintro ⟨l1, l2, h⟩
  have := congrArg List.length h
  simp at this
  omega

lemma readline_loop_err_iff (timeout : Int) (evts : List ReadEvent) :
    ∀ (i : Nat) (acc : List Char), i < timeout.toNat →
      ((∃ j out, timed_readline_loop timeout evts i acc = some (j, out) ∧
          timeout.toNat ≤ j)
        ↔ (List.replicate (timeout.toNat - i) ReadEvent.noData <+: evts ∨
           hasRun timeout.toNat (beforeFirstTerm evts))) := by
  induction evts with
  | nil =>
    intro i acc hi
    constructor
    · rintro ⟨j, out, h, _⟩
      simp [timed_readline_loop] at h
    · rintro (⟨t, ht⟩ | hr)
      · exfalso
        rw [List.append_eq_nil] at ht
        have := congrArg List.length ht.1
        simp at this
        omega
      · rw [show beforeFirstTerm [] = [] from rfl] at hr
        exact absurd hr (not_hasRun_nil (by omega))
  | cons ev rest ih =>
    intro i acc hi
    cases ev with
    | noData =>
      rw [show beforeFirstTerm (ReadEvent.noData :: rest)
            = ReadEvent.noData :: beforeFirstTerm rest from rfl]
      by_cases hc : ((i + 1 : Nat) : Int) ≥ timeout
      · have hT : timeout.toNat ≤ i + 1 := ge_iff_toNat_le.mp hc
        apply iff_of_true
        · exact ⟨i + 1, acc, by rw [timed_readline_loop, if_pos hc], by omega⟩
        · left
          rw [show timeout.toNat - i = 1 from by omega]
          exact ⟨rest, by simp⟩
      · have hT : ¬ timeout.toNat ≤ i + 1 :=
          fun hle => hc (ge_iff_toNat_le.mpr hle)
        have hloop : timed_readline_loop timeout (ReadEvent.noData :: rest) i acc
            = timed_readline_loop timeout rest (i + 1) acc := by
          rw [timed_readline_loop, if_neg hc]
        rw [hloop, ih (i + 1) acc (by omega)]
        constructor
        · rintro (hp | hr)
          · left
            obtain ⟨t, ht⟩ := hp
            rw [show timeout.toNat - i = (timeout.toNat - (i + 1)) + 1 from by omega,
              List.replicate_succ]
            exact ⟨t, by rw [List.cons_append, ht]⟩
          · right
            obtain ⟨l1, l2, h⟩ := hr
            exact ⟨ReadEvent.noData :: l1, l2, by simp [h]⟩
        · rintro (hp | hr)
          · left
            obtain ⟨t, ht⟩ := hp
            rw [show timeout.toNat - i = (timeout.toNat - (i + 1)) + 1 from by omega,
              List.replicate_succ, List.cons_append, List.cons.injEq] at ht
            exact ⟨t, ht.2⟩
          · rcases (hasRun_cons_iff _ _ _).mp hr with hp | hr'
            · left
              obtain ⟨t, ht⟩ := hp
              rw [show timeout.toNat = (timeout.toNat - 1) + 1 from by omega,
                List.replicate_succ, List.cons_append, List.cons.injEq] at ht
              have hpre : List.replicate (timeout.toNat - (i + 1)) ReadEvent.noData
                  <+: beforeFirstTerm rest :=
                (replicate_pre_mono (by omega)).trans ⟨t, ht.2⟩
              exact hpre.trans (bft_pre rest)
            · right; exact hr'
    | data c =>
      by_cases hc : isTermChar c
      · rw [show beforeFirstTerm (ReadEvent.data c :: rest) = [] from by
          simp [beforeFirstTerm, hc]]
        apply iff_of_false
        · rintro ⟨j, out, h, hTj⟩
          rw [timed_readline_loop, if_pos hc, Option.some.injEq,
            Prod.mk.injEq] at h
          obtain ⟨hj0, _⟩ := h
          omega
        · rintro (⟨t, ht⟩ | hr)
          · rw [show timeout.toNat - i = (timeout.toNat - i - 1) + 1 from by omega,
              List.replicate_succ, List.cons_append, List.cons.injEq] at ht
            exact ReadEvent.noConfusion ht.1
          · exact not_hasRun_nil (by omega) hr
      · rw [show beforeFirstTerm (ReadEvent.data c :: rest)
            = ReadEvent.data c :: beforeFirstTerm rest from by
          simp [beforeFirstTerm, hc]]
        have hloop : timed_readline_loop timeout (ReadEvent.data c :: rest) i acc
            = timed_readline_loop timeout rest 0 (acc ++ c.toList) := by
          rw [timed_readline_loop, if_neg hc]
        rw [hloop, ih 0 (acc ++ c.toList) (by omega), Nat.sub_zero]
        constructor
        · rintro (hp | hr)
          · right
            exact (hasRun_cons_iff _ _ _).mpr
              (Or.inr (hasRun_of_pre (replicate_noData_pre_bft _ rest hp)))
          · right
            exact (hasRun_cons_iff _ _ _).mpr (Or.inr hr)
        · rintro (hp | hr)
          · exfalso
            obtain ⟨t, ht⟩ := hp
            rw [show timeout.toNat - i = (timeout.toNat - i - 1) + 1 from by omega,
              List.replicate_succ, List.cons_append, List.cons.injEq] at ht
            exact ReadEvent.noConfusion ht.1
          · rcases (hasRun_cons_iff _ _ _).mp hr with hp | hr'
            · exfalso
              obtain ⟨t, ht⟩ := hp
              rw [show timeout.toNat = (timeout.toNat - 1) + 1 from by omega,
                List.replicate_succ, List.cons_append, List.cons.injEq] at ht
              exact ReadEvent.noConfusion ht.1
            · right; exact hr'

end ReadlineLemmas

/-- C2 counterexample: with `timeout = 0` the source raises `TimeoutError`
even when the stream immediately delivers a complete line, because the
post-loop check `inactive >= timeout` holds at `0 >= 0`; the claimed
"no timeout enforced" behavior does not occur. -/
theorem C2_counterexample :
    (timed_readline [ReadEvent.data (some '\n')] 0 0).result
      = some LineResult.timeoutError := by decide

/-- C2 amended: for `timeout` zero or negative, `timed_readline` never
returns a line; whenever its loop exits (after the first empty wait, or
right after consuming a newline or end-of-stream) it raises
`TimeoutError`, because the final check `inactive >= timeout` always
holds. -/
theorem C2_amended_nonpos_always_raises (evts : List ReadEvent)
    (timeout : Int) (flags : Nat) (ht : timeout ≤ 0) :
    (timed_readline evts timeout flags).result = none ∨
    (timed_readline evts timeout flags).result = some LineResult.timeoutError :=
  readline_err_of_nonpos evts timeout flags ht

/-- Witness for the amended C2 at a concrete input. -/
theorem C2_amended_nonpos_always_raises_witness :
    (timed_readline [ReadEvent.data (some 'o'),
       ReadEvent.data (some '\n')] (-1) 0).result = none ∨
    (timed_readline [ReadEvent.data (some 'o'),
       ReadEvent.data (some '\n')] (-1) 0).result
      = some LineResult.timeoutError :=
  C2_amended_nonpos_always_raises _ (-1) 0 (by decide)

/-- C7: whenever `timed_readline` returns a line (the inactivity threshold
was never reached), the line is exactly what a conventional blocking line
read would return on the same byte stream: everything up to and including
the first newline, or up to end-of-stream if no newline occurs. -/
theorem C7_timed_readline_refines_blocking (evts : List ReadEvent)
    (timeout : Int) (flags : Nat) (s : List Char)
    (h : (timed_readline evts timeout flags).result
          = some (LineResult.line s)) :
    s = blocking_readline (streamOf evts) := by
  unfold timed_readline at h
  cases hl : timed_readline_loop timeout evts 0 [] with
  | none => rw [hl] at h; simp at h
  | some p =>
    obtain ⟨j, out⟩ := p
    rw [hl] at h
    by_cases hj : ((j : Nat) : Int) ≥ timeout
    · simp [hj] at h
    · simp only [hj, if_false, Option.some.injEq, LineResult.line.injEq,
        if_neg hj] at h
      subst h
      simpa using readline_loop_line timeout evts 0 [] j out hl hj

/-- Witness for C7: a stream delivering "hi\n" with some idle seconds in
between, read with threshold 5. -/
theorem C7_timed_readline_refines_blocking_witness :
    (['h', 'i', '\n'] : List Char)
      = blocking_readline (streamOf
          [ReadEvent.data (some 'h'), ReadEvent.noData,
           ReadEvent.data (some 'i'), ReadEvent.data (some '\n')]) :=
  C7_timed_readline_refines_blocking
    [ReadEvent.data (some 'h'), ReadEvent.noData,
     ReadEvent.data (some 'i'), ReadEvent.data (some '\n')] 5 0
    ['h', 'i', '\n'] (by decide)

/-- C8: `timed_readline` raises `TimeoutError` if and only if the trace
contains a full run of `timeout` consecutive empty one-second waits — the
inactivity counter, incremented once per empty wait and reset to zero by
every arriving byte, reaching the threshold — strictly before the first
newline or end-of-stream read; the raise carries no bytes, so the
partially accumulated output is discarded. -/
theorem C8_timed_readline_raise_iff (evts : List ReadEvent) (timeout : Int)
    (flags : Nat) (r : LineResult)
    (h : (timed_readline evts timeout flags).result = some r) :
    (r = LineResult.timeoutError
      ↔ hasRun timeout.toNat (beforeFirstTerm evts)) := by
  unfold timed_readline at h
  cases hl : timed_readline_loop timeout evts 0 [] with
  | none => rw [hl] at h; simp at h
  | some p =>
    obtain ⟨j, out⟩ := p
    rw [hl] at h
    simp only [Option.some.injEq] at h
    by_cases hT : 0 < timeout.toNat
    · have hiff := readline_loop_err_iff timeout evts 0 [] hT
      rw [Nat.sub_zero] at hiff
      by_cases hj : ((j : Nat) : Int) ≥ timeout
      · rw [if_pos hj] at h
        subst h
        refine iff_of_true rfl ?_
        rcases hiff.mp ⟨j, out, hl, ge_iff_toNat_le.mp hj⟩ with hp | hr
        · exact hasRun_of_pre (replicate_noData_pre_bft _ evts hp)
        · exact hr
      · rw [if_neg hj] at h
        subst h
        apply iff_of_false
        · simp
        · intro hr
          obtain ⟨j', out', hl', hTj'⟩ := hiff.mpr (Or.inr hr)
          rw [hl, Option.some.injEq, Prod.mk.injEq] at hl'
          exact hj (ge_iff_toNat_le.mpr (by omega))
    · have ht0 : timeout ≤ 0 := Int.toNat_eq_zero.mp (by omega)
      have hj : ((j : Nat) : Int) ≥ timeout :=
        le_trans ht0 (Int.ofNat_nonneg j)
      rw [if_pos hj] at h
      subst h
      refine iff_of_true rfl ?_
      exact ⟨[], beforeFirstTerm evts, by simp [show timeout.toNat = 0 from by omega]⟩

/-- Witness for C8: two empty waits with threshold 2 raise, so the trace
has a run of two consecutive empty waits before any terminator. -/
theorem C8_timed_readline_raise_iff_witness :
    hasRun (2 : Int).toNat
      (beforeFirstTerm [ReadEvent.noData, ReadEvent.noData]) :=
  (C8_timed_readline_raise_iff [ReadEvent.noData, ReadEvent.noData] 2 0
    LineResult.timeoutError (by decide)).mp rfl

section CommLemmas

lemma collectOut_cons (fds : List StreamId) (ev : CommEvent)
    (rest : List CommEvent) :
    collectOut fds (ev :: rest)
      = (if StreamId.out ∈ fds.filter (readyIn ev) then [ev.readOut] else [])
        ++ collectOut fds rest := by
  by_cases h : StreamId.out ∈ fds.filter (readyIn ev)
  · rw [if_pos h]
    unfold collectOut
    rw [List.filter_cons, if_pos (by simpa using h)]
    simp
  · rw [if_neg h]
    unfold collectOut
    rw [List.filter_cons, if_neg (by simpa using h)]
    simp

lemma collectErr_cons (fds : List StreamId) (ev : CommEvent)
    (rest : List CommEvent) :
    collectErr fds (ev :: rest)
      = (if StreamId.err ∈ fds.filter (readyIn ev) then [ev.readErr] else [])
        ++ collectErr fds rest := by
  by_cases h : StreamId.err ∈ fds.filter (readyIn ev)
  · rw [if_pos h]
    unfold collectErr
    rw [List.filter_cons, if_pos (by simpa using h)]
    simp
  · rw [if_neg h]
    unfold collectErr
    rw [List.filter_cons, if_neg (by simpa using h)]
    simp

lemma comm_loop_ready_step (timeout : Int) (fds : List StreamId)
    (ev : CommEvent) (rest : List CommEvent) (inactive : Nat)
    (bufOut bufErr : List String) (hr : fds.filter (readyIn ev) ≠ []) :
    comm_loop timeout fds (ev :: rest) inactive bufOut bufErr
      = match ev.poll with
        | some _ => some (false,
            (if StreamId.out ∈ fds.filter (readyIn ev)
             then bufOut ++ [ev.readOut] else bufOut),
            (if StreamId.err ∈ fds.filter (readyIn ev)
             then bufErr ++ [ev.readErr] else bufErr))
        | none => comm_loop timeout fds rest 0
            (if StreamId.out ∈ fds.filter (readyIn ev)
             then bufOut ++ [ev.readOut] else bufOut)
            (if StreamId.err ∈ fds.filter (readyIn ev)
             then bufErr ++ [ev.readErr] else bufErr) := by
  simp only [comm_loop, if_neg hr]

lemma comm_loop_all_ready (timeout : Int) (fds : List StreamId) :
    ∀ (evts : List CommEvent) (inactive : Nat) (bufOut bufErr : List String),
      (∀ ev ∈ evts, fds.filter (readyIn ev) ≠ []) →
      (∃ ev ∈ evts, ev.poll.isSome = true) →
      comm_loop timeout fds evts inactive bufOut bufErr
        = some (false, bufOut ++ collectOut fds (takeThroughExit evts),
                bufErr ++ collectErr fds (takeThroughExit evts)) := by
  intro evts
  induction evts with
  | nil =>
    intro inactive bufOut bufErr _ hexit
    simp at hexit
  | cons ev rest ih =>
    intro inactive bufOut bufErr hready hexit
    have hr : fds.filter (readyIn ev) ≠ [] := hready ev (by simp)
    rw [comm_loop_ready_step timeout fds ev rest inactive bufOut bufErr hr]
    cases hp : ev.poll with
    | some code =>
      rw [show takeThroughExit (ev :: rest) = [ev] from by
        simp [takeThroughExit, hp]]
      rw [collectOut_cons, collectErr_cons]
      have h1 : collectOut fds ([] : List CommEvent) = [] := rfl
      have h2 : collectErr fds ([] : List CommEvent) = [] := rfl
      rw [h1, h2]
      by_cases ho : StreamId.out ∈ fds.filter (readyIn ev) <;>
        by_cases he : StreamId.err ∈ fds.filter (readyIn ev) <;>
          simp [ho, he]
    | none =>
      obtain ⟨ev', hmem, hsome⟩ := hexit
      have hmem' : ev' ∈ rest := by
        rcases List.mem_cons.mp hmem with heq | hm
        · rw [heq, hp] at hsome; simp at hsome
        · exact hm
      rw [ih 0 _ _ (fun e he => hready e (List.mem_cons_of_mem _ he))
        ⟨ev', hmem', hsome⟩]
      rw [show takeThroughExit (ev :: rest) = ev :: takeThroughExit rest from by
        simp [takeThroughExit, hp]]
      rw [collectOut_cons, collectErr_cons]
      by_cases ho : StreamId.out ∈ fds.filter (readyIn ev) <;>
        by_cases he : StreamId.err ∈ fds.filter (readyIn ev) <;>
          simp [ho, he]

lemma comm_loop_trace_const (timeout : Int) (fds : List StreamId) :
    ∀ (evts : List CommEvent) (inactive : Nat) (bufOut bufErr : List String)
      (s : List StreamId),
      s ∈ comm_loop_trace timeout fds evts inactive bufOut bufErr →
      s = fds := by
  intro evts
  induction evts with
  | nil =>
    intro inactive bufOut bufErr s h
    simp [comm_loop_trace] at h
  | cons ev rest ih =>
    intro inactive bufOut bufErr s h
    simp only [comm_loop_trace] at h
    by_cases hr : fds.filter (readyIn ev) = []
    · rw [if_pos hr] at h
      by_cases hc : ((inactive + 1 : Nat) : Int) ≥ timeout
      · rw [if_pos hc] at h
        simpa using h
      · rw [if_neg hc] at h
        cases hp : ev.poll with
        | some code =>
          rw [hp] at h
          simpa using h
        | none =>
          rw [hp] at h
          rcases List.mem_cons.mp h with heq | hm
          · exact heq
          · exact ih _ _ _ s hm
    · rw [if_neg hr] at h
      cases hp : ev.poll with
      | some code =>
        rw [hp] at h
        simpa using h
      | none =>
        rw [hp] at h
        rcases List.mem_cons.mp h with heq | hm
        · exact heq
        · exact ih _ _ _ s hm

end CommLemmas

/-- C1 counterexample: a `communicate` call with `timeout = 5` on a child
whose stdout starts in blocking mode (flag word 0) returns successfully,
yet afterwards the descriptor's O_NONBLOCK bit (bit 2) is still set:
`communicate` never restores blocking mode on any exit path. -/
theorem C1_counterexample :
    (communicate envQuick none 5).result
      = some (CommResult.success (some "hi") none) ∧
    ((communicate envQuick none 5).flagsOut).testBit 2 = true := by decide

/-- C1 amended: `timed_readline` restores the descriptor to blocking mode
on every exit path (success and raise alike), but `communicate` with
`timeout > 0` puts each requested descriptor into non-blocking mode and
leaves it there on every exit path: its O_NONBLOCK bit is still set when
the call returns or raises. -/
theorem C1_amended_modes :
    (∀ (evts : List ReadEvent) (timeout : Int) (flags : Nat) (r : LineResult),
       (timed_readline evts timeout flags).result = some r →
       ((timed_readline evts timeout flags).finalFlags).testBit 2 = false) ∧
    (∀ (env : CommEnv) (std_in : Option String) (timeout : Int),
       1 ≤ timeout →
       (env.hasStdout = true →
          ((communicate env std_in timeout).flagsOut).testBit 2 = true) ∧
       (env.hasStderr = true →
          ((communicate env std_in timeout).flagsErr).testBit 2 = true)) := by
  constructor
  · intro evts timeout flags r h
    cases hl : timed_readline_loop timeout evts 0 [] with
    | none =>
      simp only [timed_readline, hl] at h
      exact absurd h (by simp)
    | some p =>
      obtain ⟨j, out⟩ := p
      simp only [timed_readline, hl]
      exact testBit2_set_file_nonblock _ false
  · intro env std_in timeout ht
    have hpos : ¬ timeout ≤ 0 := by omega
    constructor
    · intro hso
      cases hl : comm_loop timeout (initFds env) env.events 0 [] [] with
      | none =>
        simp only [communicate, if_neg hpos, hl]
        simp [hso, testBit2_set_file_nonblock]
      | some p =>
        obtain ⟨raised, bO, bE⟩ := p
        simp only [communicate, if_neg hpos, hl]
        cases raised <;> simp [hso, testBit2_set_file_nonblock]
    · intro hse
      cases hl : comm_loop timeout (initFds env) env.events 0 [] [] with
      | none =>
        simp only [communicate, if_neg hpos, hl]
        simp [hse, testBit2_set_file_nonblock]
      | some p =>
        obtain ⟨raised, bO, bE⟩ := p
        simp only [communicate, if_neg hpos, hl]
        cases raised <;> simp [hse, testBit2_set_file_nonblock]

/-- Witness for the amended C1: a concrete successful line read ends with
the bit cleared, a concrete successful drain ends with the bit set. -/
theorem C1_amended_modes_witness :
    ((timed_readline [ReadEvent.data (some '\n')] 3 0).finalFlags).testBit 2
      = false ∧
    ((communicate envQuick none 5).flagsOut).testBit 2 = true :=
  ⟨C1_amended_modes.1 [ReadEvent.data (some '\n')] 3 0
     (LineResult.line ['\n']) (by decide),
   (C1_amended_modes.2 envQuick none 5 (by decide)).1 (by decide)⟩

/-- C3 counterexample: stdout reaches end-of-stream at the first
iteration (ready, zero-byte read), yet the wait set handed to `select` at
the second and third iterations still contains it, and the EOF-ready
descriptor keeps resetting the counter, so even `timeout = 1` succeeds;
removal from the wait set would have left an empty set and timed out. -/
theorem C3_counterexample :
    comm_loop_trace 1 (initFds envEof) envEof.events 0 [] []
      = [[StreamId.out], [StreamId.out], [StreamId.out]] ∧
    (communicate envEof none 1).result
      = some (CommResult.success (some "") none) := by decide

/-- C3 amended: an iteration whose ready set is nonempty — including one
whose only ready descriptor reads zero bytes at end-of-stream — resets
the inactivity counter to zero and continues with the same wait set; the
wait set recorded at every executed iteration equals the one built before
the loop, so a descriptor is never removed from it. -/
theorem C3_amended_eof_resets_but_stays :
    (∀ (timeout : Int) (fds : List StreamId) (ev : CommEvent)
       (rest : List CommEvent) (inactive : Nat) (bufOut bufErr : List String),
       fds.filter (readyIn ev) ≠ [] → ev.poll = none →
       comm_loop timeout fds (ev :: rest) inactive bufOut bufErr
         = comm_loop timeout fds rest 0
             (if StreamId.out ∈ fds.filter (readyIn ev)
              then bufOut ++ [ev.readOut] else bufOut)
             (if StreamId.err ∈ fds.filter (readyIn ev)
              then bufErr ++ [ev.readErr] else bufErr)) ∧
    (∀ (timeout : Int) (fds : List StreamId) (evts : List CommEvent)
       (inactive : Nat) (bufOut bufErr : List String) (s : List StreamId),
       s ∈ comm_loop_trace timeout fds evts inactive bufOut bufErr →
       s = fds) := by
  constructor
  · intro timeout fds ev rest inactive bufOut bufErr hr hp
    rw [comm_loop_ready_step timeout fds ev rest inactive bufOut bufErr hr, hp]
  · intro timeout fds evts inactive bufOut bufErr s h
    exact comm_loop_trace_const timeout fds evts inactive bufOut bufErr s h

/-- Witness for the amended C3 at the end-of-stream observation. -/
theorem C3_amended_eof_resets_but_stays_witness :
    comm_loop 1 [StreamId.out] [evEof, evEofExit] 0 [] []
      = comm_loop 1 [StreamId.out] [evEofExit] 0
          (if StreamId.out ∈ [StreamId.out].filter (readyIn evEof)
           then [] ++ [evEof.readOut] else [])
          (if StreamId.err ∈ [StreamId.out].filter (readyIn evEof)
           then [] ++ [evEof.readErr] else []) ∧
    ([StreamId.out] : List StreamId) = [StreamId.out] :=
  ⟨C3_amended_eof_resets_but_stays.1 1 [StreamId.out] evEof [evEofExit] 0 [] []
     (by decide) rfl,
   C3_amended_eof_resets_but_stays.2 1 [StreamId.out] [evEof, evEofExit] 0 [] []
     [StreamId.out] (by decide)⟩

/-- C4: with `timeout > 0` and `std_in` supplied, the source executes
`sys.stdin.write(std_in)` — the bytes go to the parent process's own
standard input, and nothing is ever written to the child's standard
input, contradicting the documented intent of sending `std_in` to the
child. -/
theorem C4_std_in_written_to_parent_stdin :
    (communicate envStdin (some "data") 5).writes
      = { parentStdin := "data", childStdin := "" } := by decide

/-- C5: with threshold at least 1, if every one-second wait reports some
monitored descriptor ready until the iteration at which the child's exit
status appears, `communicate` never raises and returns, per requested
stream, the join of the reads performed, in arrival order. -/
theorem C5_steady_activity_never_times_out (env : CommEnv)
    (std_in : Option String) (timeout : Int) (ht : 1 ≤ timeout)
    (hready : ∀ ev ∈ env.events, (initFds env).filter (readyIn ev) ≠ [])
    (hexit : ∃ ev ∈ env.events, ev.poll.isSome = true) :
    (communicate env std_in timeout).result
      = some (CommResult.success
          (if env.hasStdout then
            some (String.join
              (collectOut (initFds env) (takeThroughExit env.events)))
           else none)
          (if env.hasStderr then
            some (String.join
              (collectErr (initFds env) (takeThroughExit env.events)))
           else none)) := by
  have hpos : ¬ timeout ≤ 0 := by omega
  simp only [communicate, if_neg hpos,
    comm_loop_all_ready timeout (initFds env) env.events 0 [] [] hready hexit]
  simp

/-- Witness for C5: a child delivering "a" then "b" on stdout with
threshold 2. -/
theorem C5_steady_activity_never_times_out_witness :
    (communicate envSteady none 2).result
      = some (CommResult.success (some "ab") none) := by
  have h := C5_steady_activity_never_times_out envSteady none 2 (by decide)
    (by decide) (by decide)
  rw [h]; decide

/-- C6: with `timeout` zero or negative, `communicate` is exactly the
parent facility's plain unbounded blocking communicate: no inactivity
monitoring, no possibility of the timeout error, both streams drained to
completion. -/
theorem C6_nonpos_timeout_is_blocking (env : CommEnv)
    (std_in : Option String) (timeout : Int) (ht : timeout ≤ 0) :
    communicate env std_in timeout = super_communicate env std_in ∧
    (communicate env std_in timeout).result
      = some (CommResult.success
          (if env.hasStdout then some (allOut env) else none)
          (if env.hasStderr then some (allErr env) else none)) := by
  have hc : communicate env std_in timeout = super_communicate env std_in := by
    unfold communicate
    rw [if_pos ht]
  exact ⟨hc, by rw [hc]; rfl⟩

/-- Witness for C6 at `timeout = 0` on a child printing "hi". -/
theorem C6_nonpos_timeout_is_blocking_witness :
    communicate envQuick none 0 = super_communicate envQuick none ∧
    (communicate envQuick none 0).result
      = some (CommResult.success (some "hi") none) := by
  have h := C6_nonpos_timeout_is_blocking envQuick none 0 (by decide)
  exact ⟨h.1, by rw [h.2]; decide⟩

/-- C9: on a successful drain, a stream the caller did not request is
absent from the wait set built before the loop and its result component
is `None`, while each requested stream's component is the join of its
accumulated buffer. -/
theorem C9_unrequested_stream_excluded (env : CommEnv)
    (std_in : Option String) (timeout : Int) (ht : 1 ≤ timeout)
    (o e : Option String)
    (h : (communicate env std_in timeout).result
          = some (CommResult.success o e)) :
    (env.hasStdout = false → StreamId.out ∉ initFds env ∧ o = none) ∧
    (env.hasStderr = false → StreamId.err ∉ initFds env ∧ e = none) ∧
    (env.hasStdout = true → ∃ bufOut bufErr,
       comm_loop timeout (initFds env) env.events 0 [] []
         = some (false, bufOut, bufErr) ∧ o = some (String.join bufOut)) ∧
    (env.hasStderr = true → ∃ bufOut bufErr,
       comm_loop timeout (initFds env) env.events 0 [] []
         = some (false, bufOut, bufErr) ∧ e = some (String.join bufErr)) := by
  have hpos : ¬ timeout ≤ 0 := by omega
  cases hl : comm_loop timeout (initFds env) env.events 0 [] [] with
  | none =>
    simp only [communicate, if_neg hpos, hl] at h
    simp at h
  | some p =>
    obtain ⟨raised, bO, bE⟩ := p
    simp only [communicate, if_neg hpos, hl] at h
    cases raised with
    | true => simp at h
    | false =>
      simp only [Bool.false_eq_true, if_false, Option.some.injEq,
        CommResult.success.injEq] at h
      obtain ⟨ho, he⟩ := h
      refine ⟨?_, ?_, ?_, ?_⟩
      · intro hso
        refine ⟨?_, by rw [← ho]; simp [hso]⟩
        cases henv : env.hasStderr <;> simp [initFds, hso, henv]
      · intro hse
        refine ⟨?_, by rw [← he]; simp [hse]⟩
        cases henv : env.hasStdout <;> simp [initFds, hse, henv]
      · intro hso
        exact ⟨bO, bE, rfl, by rw [← ho]; simp [hso]⟩
      · intro hse
        exact ⟨bO, bE, rfl, by rw [← he]; simp [hse]⟩

/-- Witness for C9: stderr was not requested by `envQuick`, so it is not
in the wait set and its component is `None`. -/
theorem C9_unrequested_stream_excluded_witness :
    StreamId.err ∉ initFds envQuick ∧ (none : Option String) = none :=
  (C9_unrequested_stream_excluded envQuick none 5 (by decide) (some "hi")
    none (by decide)).2.1 rfl

end Munki
